import Mathlib

/-!
Shallow embedding of the `multi_threaded_server` repository's UDP time-sync
core: the frame envelope helpers in `udp_payloads.py` and
`udp_packet_crafter_class.py`, the validating encoder in
`example_data_frame.py`, the client damping loop in `udp_simple_client.py`,
and the server receive loop in `udp_server_main.py` / `udp_server_class.py`.
Machine integers are modelled as `Nat`/`Int`; Python floats as `ℚ`;
fallible operations (struct packing, process exit, raised errors) as
`Option`/`Except`.
-/

namespace MTS

/-- `udp_payloads.py`: `MAX_16_BIT = 65535`. -/
def MAX_16_BIT : ℕ := 65535

/-- `udp_payloads.py`: `MAX_32_BIT = 2**32 - 1`. -/
def MAX_32_BIT : ℕ := 2 ^ 32 - 1

/-- `udp_payloads.py`: `MAX_24_BIT = 2**24 - 1`. -/
def MAX_24_BIT : ℕ := 2 ^ 24 - 1

/-- Big-endian 2-byte encoding of a 16-bit value (struct format char H). -/
def pack16 (n : ℕ) : List ℕ := [n / 256 % 256, n % 256]

/-- Big-endian 4-byte encoding of a 32-bit value (struct format char I). -/
def pack32 (n : ℕ) : List ℕ :=
  [n / 2 ^ 24 % 256, n / 2 ^ 16 % 256, n / 256 % 256, n % 256]

/-- Python `struct.pack('!HHHIIH', ...)`: three unsigned 16-bit fields, two
unsigned 32-bit fields, one unsigned 16-bit field, big-endian; raises
`struct.error` (modelled as `none`) when any argument is out of range. -/
def structPackHHHIIH (a b c d e f : ℕ) : Option (List ℕ) :=
  if a < 2 ^ 16 ∧ b < 2 ^ 16 ∧ c < 2 ^ 16 ∧ d < 2 ^ 32 ∧ e < 2 ^ 32 ∧ f < 2 ^ 16 then
    some (pack16 a ++ pack16 b ++ pack16 c ++ pack32 d ++ pack32 e ++ pack16 f)
  else
    none

/-- `udp_payloads.common_frame_build`: range-guards SYNC, FRAME_SIZE, SOC and
FRACSEC — on violation the Python code prints and calls `exit(-1)`, modelled
as `none` — then packs the six fields with `struct.pack('!HHHIIH', ...)`. -/
def common_frame_build (SYNC FRAME_SIZE IDCODE SOC FRACSEC CHK : ℕ) :
    Option (List ℕ) :=
  if ¬ (0xAA00 ≤ SYNC ∧ SYNC ≤ 0xAA6F) then none
  else if ¬ (FRAME_SIZE ≤ MAX_16_BIT) then none
  else if ¬ (SOC ≤ MAX_32_BIT) then none
  else if ¬ (FRACSEC ≤ MAX_24_BIT) then none
  else structPackHHHIIH SYNC FRAME_SIZE IDCODE SOC FRACSEC CHK

/-- `udp_packet_crafter_class.Common_frame.build`: packs the six stored
fields with `struct.pack('!HHHIIH', ...)` and returns the bytes; it performs
no range guards of its own beyond what `struct.pack` enforces. -/
def Common_frame_build (SYNC FRAME_SIZE IDCODE SOC FRACSEC CHK : ℕ) :
    Option (List ℕ) :=
  structPackHHHIIH SYNC FRAME_SIZE IDCODE SOC FRACSEC CHK

/-- `udp_payloads.set_frasec`: assembles the FRASEC flag byte (reserved bit,
leap direction, leap occurred, leap pending, 4-bit time quality), XORs away
the byte's MSB, shifts left 24 bits and ORs in the fraction-of-second.
It performs no range validation on any argument. -/
def set_frasec (fr_seconds : ℕ) (leap_dir : String) (leap_occ leap_pen : Bool)
    (time_quality : ℕ) : ℕ :=
  let f0 : ℕ := 1 <<< 1
  let f1 : ℕ := if leap_dir = "-" then f0 ||| 1 else f0
  let f2 : ℕ := f1 <<< 1
  let f3 : ℕ := if leap_occ then f2 ||| 1 else f2
  let f4 : ℕ := f3 <<< 1
  let f5 : ℕ := if leap_pen then f4 ||| 1 else f4
  let f6 : ℕ := f5 <<< 4
  let f7 : ℕ := f6 ||| time_quality
  let f8 : ℕ := f7 ^^^ (1 <<< 7)
  let f9 : ℕ := f8 <<< 24
  f9 ||| fr_seconds

/-- `udp_payloads.int2frasec`: splits a FRASEC word back into
(fraction-of-second, leap direction, leap occurred, leap pending,
time quality).  Note the fraction mask in the source is `2**23 - 1`. -/
def int2frasec (frasec_int : ℕ) : ℕ × String × Bool × Bool × ℕ :=
  let tq := frasec_int >>> 24
  let leap_dir : String := if tq &&& 0b01000000 ≠ 0 then "-" else "+"
  let leap_occ : Bool := tq &&& 0b00100000 ≠ 0
  let leap_pen : Bool := tq &&& 0b00010000 ≠ 0
  let time_quality := tq &&& 0b00001111
  let fr_seconds := frasec_int &&& (2 ^ 23 - 1)
  (fr_seconds, leap_dir, leap_occ, leap_pen, time_quality)

/-- `udp_payloads.get_frasec`: first component of `int2frasec`. -/
def get_frasec (frasec : ℕ) : ℕ := (int2frasec frasec).1

/-- `example_data_frame.CommonFrame.set_frasec`: validating variant of the
FRASEC packer.  Raises `FrameError` (modelled as `Except.error`) when the
fraction exceeds `16777215`, the time-quality code is outside `0..15` or in
`{12, 13, 14}`, or the leap direction is neither "+" nor "-"; otherwise it
assembles the same word as `udp_payloads.set_frasec`. -/
def exampleSetFrasec (fr_seconds : ℕ) (leap_dir : String)
    (leap_occ leap_pen : Bool) (time_quality : ℕ) : Except String ℕ :=
  if ¬ (fr_seconds ≤ 16777215) then
    Except.error "Frasec out of range. 0 <= FRASEC <= 16777215 "
  else if ¬ (time_quality ≤ 15) ∨ time_quality ∈ [12, 13, 14] then
    Except.error "Time quality flag out of range. 0 <= MSG_TQ <= 15"
  else if ¬ (leap_dir ∈ ["+", "-"]) then
    Except.error "Leap second direction must be + or -"
  else
    Except.ok (set_frasec fr_seconds leap_dir leap_occ leap_pen time_quality)

/-- Modelled from the spec: one bit-step of CRC16/XMODEM — shift left one
bit, reduce by the polynomial 0x1021 when the top bit was set, keep 16 bits.
The CRC routine itself (`synchrophasor.utils.crc16xmodem`) is imported by
`example_data_frame.py` but its body is not in this repository. -/
def crc16_bit (c : ℕ) : ℕ :=
  if c &&& 0x8000 ≠ 0 then ((c <<< 1) ^^^ 0x1021) % 2 ^ 16
  else (c <<< 1) % 2 ^ 16

/-- Modelled from the spec: CRC16/XMODEM absorption of one byte — XOR the
byte into the high half, then eight bit-steps. -/
def crc16_step (c b : ℕ) : ℕ := crc16_bit^[8] (c ^^^ (b <<< 8))

/-- Modelled from the spec: CRC16/XMODEM over a byte list — polynomial
0x1021, seeded with the given initial value (0xFFFF in every use in this
repository), no reflection, no final XOR. -/
def crc16_xmodem (bs : List ℕ) (start : ℕ) : ℕ := bs.foldl crc16_step start

/-- `example_data_frame.CommonFrame.convert2bytes`: the envelope emitted by
the validating codec — header fields then payload, with the CRC16/XMODEM of
everything so far appended big-endian. -/
def exampleConvert2bytes (SYNC FRAME_SIZE IDCODE SOC FRASEC : ℕ)
    (payload : List ℕ) : List ℕ :=
  let pre := pack16 SYNC ++ pack16 FRAME_SIZE ++ pack16 IDCODE ++
    pack32 SOC ++ pack32 FRASEC ++ payload
  pre ++ pack16 (crc16_xmodem pre 0xFFFF)

/-- Python `int()` applied to a number: truncation toward zero. -/
def pytrunc (q : ℚ) : ℤ := if 0 ≤ q then ⌊q⌋ else -⌊-q⌋

/-- State of the client damping loop in `udp_simple_client.py`: the module
globals `local_time_offset` (seconds), `sync_count`, `total_corrections`. -/
structure ClientSyncState where
  local_time_offset : ℚ
  sync_count : ℕ
  total_corrections : ℚ

/-- `udp_simple_client.apply_time_correction`: converts the round-trip time
(ms) to µs and halves it, ADDS that to the received correction (µs),
converts to seconds, scales by the adaptive damping factor and accumulates
into `local_time_offset`; returns (applied, compensated, compensation). -/
def apply_time_correction (st : ClientSyncState)
    (correction_microseconds round_trip_time_ms : ℚ) :
    ClientSyncState × ℚ × ℚ × ℚ :=
  let network_delay_compensation := round_trip_time_ms * 1000 / 2
  let compensated_correction := correction_microseconds + network_delay_compensation
  let correction_seconds := compensated_correction / 1000000
  let damping_factor : ℚ :=
    if st.sync_count < 5 then 1/2 else if st.sync_count < 10 then 3/10 else 1/10
  let correction_to_apply := correction_seconds * damping_factor
  ({ local_time_offset := st.local_time_offset + correction_to_apply,
     sync_count := st.sync_count + 1,
     total_corrections := st.total_corrections + |correction_seconds| },
   correction_to_apply, compensated_correction, network_delay_compensation)

/-- The damping update as the claim words it: identical to
`apply_time_correction` except that the received correction is adjusted by
SUBTRACTING half of the measured round-trip time. -/
def claimApplyTimeCorrection (st : ClientSyncState)
    (correction_microseconds round_trip_time_ms : ℚ) :
    ClientSyncState × ℚ × ℚ × ℚ :=
  let network_delay_compensation := round_trip_time_ms * 1000 / 2
  let compensated_correction := correction_microseconds - network_delay_compensation
  let correction_seconds := compensated_correction / 1000000
  let damping_factor : ℚ :=
    if st.sync_count < 5 then 1/2 else if st.sync_count < 10 then 3/10 else 1/10
  let correction_to_apply := correction_seconds * damping_factor
  ({ local_time_offset := st.local_time_offset + correction_to_apply,
     sync_count := st.sync_count + 1,
     total_corrections := st.total_corrections + |correction_seconds| },
   correction_to_apply, compensated_correction, network_delay_compensation)

/-- One measurement record pushed onto `TimeSeriesAnalyzer.timing_data`
(the wall-clock timestamp is dropped; every other field is kept). -/
structure Measurement where
  soc_diff : ℤ
  fracsec_diff : ℤ
  total_microsec_diff : ℤ
  packet_num : ℕ
  ewma_pred_us : ℤ
  kalman_pred_us : ℤ
  pid_pred_us : ℤ
  scheme : Option String
  corrected_us : Option ℤ
deriving DecidableEq

/-- `udp_server_main.TimeSeriesAnalyzer`: ring buffer plus EWMA, Kalman and
PID estimator state. -/
structure Analyzer where
  timing_data : List Measurement
  buffer_size : ℕ
  packet_count : ℕ
  alpha : ℚ
  ewma_pred : Option ℚ
  kalman_est : Option ℤ
  kalman_P : ℤ
  kalman_R : ℤ
  kalman_Q : ℤ
  kp : ℚ
  ki : ℚ
  kd : ℚ
  pid_integral : ℤ
  pid_prev_err : Option ℤ
  pid_pred : ℤ
deriving DecidableEq

/-- `TimeSeriesAnalyzer.__init__(buffer_size, alpha=0.2)`. -/
def mkAnalyzer (buffer_size : ℕ) : Analyzer :=
  { timing_data := [], buffer_size, packet_count := 0,
    alpha := 1/5, ewma_pred := none,
    kalman_est := none, kalman_P := 1000000, kalman_R := 2000000,
    kalman_Q := 10000,
    kp := 3/5, ki := 1/20, kd := 0,
    pid_integral := 0, pid_prev_err := none, pid_pred := 0 }

/-- Appending to a `collections.deque` with `maxlen`: the oldest entries are
dropped from the left so that at most `maxlen` remain. -/
def pushRing (maxlen : ℕ) (l : List Measurement) (m : Measurement) :
    List Measurement :=
  (l ++ [m]).drop (l.length + 1 - maxlen)

/-- `TimeSeriesAnalyzer.add_measurement(soc_diff, fracsec_diff)`: computes
the total µs sample, updates EWMA (first sample initializes the
prediction), runs the Kalman predict/update with Python `int()` truncation
of the new estimate and variance, updates the PID integral, derivative and
truncated output, appends the measurement to the ring buffer and bumps
`packet_count`. -/
def add_measurement (a : Analyzer) (soc_diff fracsec_diff : ℤ) : Analyzer :=
  let total : ℤ := soc_diff * 1000000 + fracsec_diff
  let ewma' : ℚ :=
    match a.ewma_pred with
    | none => (total : ℚ)
    | some p => a.alpha * (total : ℚ) + (1 - a.alpha) * p
  let x_pred : ℤ := a.kalman_est.getD total
  let P_pred : ℤ := a.kalman_P + a.kalman_Q
  let K_gain : ℚ := (P_pred : ℚ) / ((P_pred : ℚ) + (a.kalman_R : ℚ))
  let kalman_est' : ℤ := pytrunc ((x_pred : ℚ) + K_gain * ((total : ℚ) - (x_pred : ℚ)))
  let kalman_P' : ℤ := pytrunc ((1 - K_gain) * (P_pred : ℚ))
  let integral' : ℤ := a.pid_integral + total
  let derivative : ℤ :=
    match a.pid_prev_err with
    | none => 0
    | some p => total - p
  let pid_pred' : ℤ :=
    pytrunc (a.kp * (total : ℚ) + a.ki * (integral' : ℚ) + a.kd * (derivative : ℚ))
  let meas : Measurement :=
    { soc_diff, fracsec_diff, total_microsec_diff := total,
      packet_num := a.packet_count,
      ewma_pred_us := pytrunc ewma', kalman_pred_us := kalman_est',
      pid_pred_us := pid_pred', scheme := none, corrected_us := none }
  { a with
    timing_data := pushRing a.buffer_size a.timing_data meas,
    packet_count := a.packet_count + 1,
    ewma_pred := some ewma',
    kalman_est := some kalman_est', kalman_P := kalman_P',
    pid_integral := integral', pid_prev_err := some total,
    pid_pred := pid_pred' }

/-- `TimeSeriesAnalyzer.predicted_offset_us`. -/
def predicted_offset_us (a : Analyzer) : ℚ := a.ewma_pred.getD 0

/-- `TimeSeriesAnalyzer.kalman_offset_us`. -/
def kalman_offset_us (a : Analyzer) : ℤ := a.kalman_est.getD 0

/-- `TimeSeriesAnalyzer.pid_offset_us` (the stored PID output is never
`None`, it is initialized to 0). -/
def pid_offset_us (a : Analyzer) : ℤ := a.pid_pred

/-- Modelled from the spec: one exact one-dimensional Kalman
predict/update step — `P_pred = P + Q`, `x_pred = x`,
`K = P_pred / (P_pred + R)`, `x' = x_pred + K (s − x_pred)`,
`P' = (1 − K) P_pred` — with no integer truncation. -/
def specKalmanStep (x P s Q R : ℚ) : ℚ × ℚ :=
  let P_pred := P + Q
  let x_pred := x
  let K := P_pred / (P_pred + R)
  (x_pred + K * (s - x_pred), (1 - K) * P_pred)

/-- `udp_server_class.UDP_server.time_diff_calc`: subtracts client SOC and
FRACSEC from the server's, then normalizes the fraction difference by one
borrow/carry when it exceeds one second (±10⁶ µs); returns
(diff_SOC, diff_FRACSEC). -/
def time_diff_calc (server_SOC server_FRACSEC client_SOC client_FRACSEC : ℤ) :
    ℤ × ℤ :=
  let diff_SOC := server_SOC - client_SOC
  let diff_FRACSEC := server_FRACSEC - client_FRACSEC
  if diff_FRACSEC < -1000000 then (diff_SOC - 1, diff_FRACSEC + 1000000)
  else if diff_FRACSEC > 1000000 then (diff_SOC + 1, diff_FRACSEC - 1000000)
  else (diff_SOC, diff_FRACSEC)

/-- The tuple returned by `struct.unpack('!HHHIIH', data)` in
`UDP_server.recv_bytes`. -/
structure UnpackedFrame where
  sync : ℕ
  frame_size : ℕ
  idcode : ℕ
  soc : ℕ
  fracsec : ℕ
  chk : ℕ
deriving DecidableEq

/-- Big-endian read of two bytes. -/
def read16 (b0 b1 : ℕ) : ℕ := b0 * 256 + b1

/-- Big-endian read of four bytes. -/
def read32 (b0 b1 b2 b3 : ℕ) : ℕ := ((b0 * 256 + b1) * 256 + b2) * 256 + b3

/-- `struct.unpack('!HHHIIH', data)`: requires exactly 16 bytes, otherwise
`struct.error` (modelled as `none`). -/
def unpackFrame : List ℕ → Option UnpackedFrame
  | [a0, a1, b0, b1, c0, c1, d0, d1, d2, d3, e0, e1, e2, e3, f0, f1] =>
      some { sync := read16 a0 a1, frame_size := read16 b0 b1,
             idcode := read16 c0 c1, soc := read32 d0 d1 d2 d3,
             fracsec := read32 e0 e1 e2 e3, chk := read16 f0 f1 }
  | _ => none

/-- `udp_server_main`: `scheme_map = {1:'raw',2:'ewma',3:'kalman',4:'pid'}`
read with `.get(scheme_id, 'raw')`. -/
def schemeMap (n : ℕ) : String :=
  if n = 1 then "raw"
  else if n = 2 then "ewma"
  else if n = 3 then "kalman"
  else if n = 4 then "pid"
  else "raw"

/-- The `(ip, port)` sender address used as the per-client key. -/
abbrev ClientKey := String × ℕ

/-- Wall-clock values drawn inside one loop iteration: the `time()` call in
`time_diff_calc`, and the two `time.time()` calls that stamp the reply. -/
structure ServerClock where
  recv_soc : ℤ
  recv_frac : ℤ
  reply_soc : ℤ
  reply_frac : ℤ
deriving DecidableEq

/-- The correction reply assembled into `correction_data`. -/
structure Reply where
  ack_num : ℕ
  scheme : String
  correction_us : ℤ
  server_time_soc : ℤ
  server_time_fracsec : ℤ
deriving DecidableEq

/-- A JSON scalar appearing in the reply object. -/
inductive JVal where
  | jint (z : ℤ)
  | jstr (s : String)
deriving DecidableEq

/-- The JSON object literal built for `correction_data`, as an ordered list
of key/value pairs. -/
def replyJson (r : Reply) : List (String × JVal) :=
  [("ack_num", JVal.jint r.ack_num),
   ("scheme", JVal.jstr r.scheme),
   ("correction_us", JVal.jint r.correction_us),
   ("server_time_soc", JVal.jint r.server_time_soc),
   ("server_time_fracsec", JVal.jint r.server_time_fracsec)]

/-- Python dict membership/read on a per-client table. -/
def alookup {β : Type} : List (ClientKey × β) → ClientKey → Option β
  | [], _ => none
  | (k', v) :: t, k => if k' = k then some v else alookup t k

/-- Python dict write on a per-client table. -/
def aupdate {β : Type} : List (ClientKey × β) → ClientKey → β → List (ClientKey × β)
  | [], k, v => [(k, v)]
  | (k', v') :: t, k, v =>
      if k' = k then (k, v) :: t else (k', v') :: aupdate t k v

/-- The mutable state of the `udp_server_main` receive loop. -/
structure ServerState where
  global_analyzer : Analyzer
  client_analyzers : List (ClientKey × Analyzer)
  client_packet_count : List (ClientKey × ℕ)
  client_bias_us : List (ClientKey × Option ℤ)
  sqn_num : ℕ

/-- The server state at startup: a global analyzer with buffer 2000, empty
per-client tables, `sqn_num = 0`. -/
def initServerState : ServerState :=
  { global_analyzer := mkAnalyzer 2000, client_analyzers := [],
    client_packet_count := [], client_bias_us := [], sqn_num := 0 }

/-- The `(ΔSOC, ΔFRACSEC)` sample drawn from a received frame against the
server clock. -/
def frame_offsets (f : UnpackedFrame) (clk : ServerClock) : ℤ × ℤ :=
  time_diff_calc clk.recv_soc clk.recv_frac (f.soc : ℤ) (f.fracsec : ℤ)

/-- `scheme_value_map` lookup: the µs value emitted for a scheme before any
bias handling — raw for "raw" (and for any unknown string), `int()` of the
EWMA prediction, the Kalman estimate, the PID output. -/
def scheme_value (g : Analyzer) (raw_us : ℤ) (scheme : String) : ℤ :=
  if scheme = "raw" then raw_us
  else if scheme = "ewma" then pytrunc (predicted_offset_us g)
  else if scheme = "kalman" then kalman_offset_us g
  else if scheme = "pid" then pid_offset_us g
  else raw_us

/-- In-place annotation `timing_data[-1]['scheme'] = …` /
`…['corrected_us'] = …` on the most recent ring-buffer entry (no-op on an
empty buffer). -/
def annotateLast : List Measurement → String → ℤ → List Measurement
  | [], _, _ => []
  | [m], s, c => [{ m with scheme := some s, corrected_us := some c }]
  | m :: t, s, c => m :: annotateLast t s c

/-- Annotation lifted to the analyzer. -/
def annotateAnalyzer (a : Analyzer) (s : String) (c : ℤ) : Analyzer :=
  { a with timing_data := annotateLast a.timing_data s c }

/-- The correction the loop would emit with no bias subtracted: the scheme
value computed from the global analyzer after its two `add_measurement`
calls for this datagram. -/
def unbiasedCorrection (st : ServerState) (f : UnpackedFrame)
    (clk : ServerClock) : ℤ :=
  let td := frame_offsets f clk
  let g2 := add_measurement (add_measurement st.global_analyzer td.1 td.2) td.1 td.2
  scheme_value g2 (td.1 * 1000000 + td.2) (schemeMap f.idcode)

/-- The body of the `while True` receive loop in `udp_server_main` for one
successfully unpacked datagram: per-client setup, the two pairs of
`add_measurement` calls (one pair at "Add to time series analyzer", one at
"store raw measurement"), scheme choice, bias handling, annotation of the
latest measurement, reply construction and `sqn_num` increment. -/
def processDatagram (st : ServerState) (sender : ClientKey)
    (f : UnpackedFrame) (clk : ServerClock) : ServerState × Reply :=
  let client0 : Analyzer := (alookup st.client_analyzers sender).getD (mkAnalyzer 500)
  let cpc : ℕ := (alookup st.client_packet_count sender).getD 0 + 1
  let bias : Option ℤ := (alookup st.client_bias_us sender).getD none
  let scheme : String := schemeMap f.idcode
  let td := frame_offsets f clk
  let g1 := add_measurement st.global_analyzer td.1 td.2
  let c1 := add_measurement client0 td.1 td.2
  let raw_us : ℤ := td.1 * 1000000 + td.2
  let g2 := add_measurement g1 td.1 td.2
  let c2 := add_measurement c1 td.1 td.2
  let chosen0 : ℤ := scheme_value g2 raw_us scheme
  let chosen : ℤ :=
    match bias with
    | some b =>
        if scheme = "ewma" ∨ scheme = "kalman" ∨ scheme = "pid" then chosen0 - b
        else chosen0
    | none => chosen0
  let g3 := annotateAnalyzer g2 scheme chosen
  let c3 := annotateAnalyzer c2 scheme chosen
  ({ global_analyzer := g3,
     client_analyzers := aupdate st.client_analyzers sender c3,
     client_packet_count := aupdate st.client_packet_count sender cpc,
     client_bias_us := aupdate st.client_bias_us sender bias,
     sqn_num := st.sqn_num + 1 },
   { ack_num := st.sqn_num, scheme, correction_us := chosen,
     server_time_soc := clk.reply_soc, server_time_fracsec := clk.reply_frac })

/-- One iteration of the receive loop: a datagram that fails
`struct.unpack` raises `struct.error`, which the loop catches and ignores —
state is untouched and no reply is sent; otherwise the datagram is
processed and a reply emitted. -/
def serverLoopStep (st : ServerState) (bs : List ℕ) (sender : ClientKey)
    (clk : ServerClock) : ServerState × Option Reply :=
  match unpackFrame bs with
  | none => (st, none)
  | some f =>
      let p := processDatagram st sender f clk
      (p.1, some p.2)

/-- The receive loop run over a finite trace of incoming datagrams,
collecting the replies sent. -/
def runServer (st : ServerState) :
    List (List ℕ × ClientKey × ServerClock) → ServerState × List Reply
  | [] => (st, [])
  | (bs, sender, clk) :: rest =>
      let p := serverLoopStep st bs sender clk
      let q := runServer p.1 rest
      (q.1, match p.2 with | none => q.2 | some r => r :: q.2)

/-- All entries of the per-client bias table are `None`. -/
def biasesUnset (st : ServerState) : Prop :=
  ∀ p ∈ st.client_bias_us, p.2 = (none : Option ℤ)

/-- The estimator-state components of an analyzer (everything
`add_measurement` recurses on besides the ring buffer). -/
def estState (a : Analyzer) :
    Option ℚ × Option ℤ × ℤ × ℤ × Option ℤ × ℤ :=
  (a.ewma_pred, a.kalman_est, a.kalman_P, a.pid_integral, a.pid_prev_err,
   a.pid_pred)

/-! Helper lemmas shared by the claim theorems. -/

theorem pushRing_length (n : ℕ) (l : List Measurement) (m : Measurement) :
    (pushRing n l m).length = min (l.length + 1) n := by
  simp only [pushRing, List.length_drop, List.length_append, List.length_cons,
    List.length_nil]
  omega

theorem annotateLast_length (l : List Measurement) (s : String) (c : ℤ) :
    (annotateLast l s c).length = l.length := by
  induction l with
  | nil => rfl
  | cons m t ih =>
      cases t with
      | nil => rfl
      | cons m' t' => simpa [annotateLast] using ih

theorem add_measurement_packet_count (a : Analyzer) (d f : ℤ) :
    (add_measurement a d f).packet_count = a.packet_count + 1 := rfl

theorem add_measurement_buffer_size (a : Analyzer) (d f : ℤ) :
    (add_measurement a d f).buffer_size = a.buffer_size := rfl

theorem add_measurement_timing_length (a : Analyzer) (d f : ℤ) :
    (add_measurement a d f).timing_data.length =
      min (a.timing_data.length + 1) a.buffer_size := by
  simp [add_measurement, pushRing_length]

theorem annotateAnalyzer_packet_count (a : Analyzer) (s : String) (c : ℤ) :
    (annotateAnalyzer a s c).packet_count = a.packet_count := rfl

theorem annotateAnalyzer_estState (a : Analyzer) (s : String) (c : ℤ) :
    estState (annotateAnalyzer a s c) = estState a := rfl

theorem annotateAnalyzer_timing_length (a : Analyzer) (s : String) (c : ℤ) :
    (annotateAnalyzer a s c).timing_data.length = a.timing_data.length := by
  simp [annotateAnalyzer, annotateLast_length]

theorem alookup_aupdate_self {β : Type} (l : List (ClientKey × β))
    (k : ClientKey) (v : β) : alookup (aupdate l k v) k = some v := by
  induction l with
  | nil => simp [aupdate, alookup]
  | cons p t ih =>
      obtain ⟨k', v'⟩ := p
      by_cases h : k' = k <;> simp [aupdate, alookup, h, ih]

theorem alookup_all_none (l : List (ClientKey × Option ℤ)) (k : ClientKey)
    (h : ∀ p ∈ l, p.2 = (none : Option ℤ)) :
    (alookup l k).getD none = (none : Option ℤ) := by
  induction l with
  | nil => simp [alookup]
  | cons p t ih =>
      obtain ⟨k', v'⟩ := p
      have hv : v' = none := h (k', v') (List.mem_cons_self _ _)
      have ht : ∀ q ∈ t, q.2 = (none : Option ℤ) :=
        fun q hq => h q (List.mem_cons_of_mem _ hq)
      by_cases hk : k' = k
      · simp [alookup, hk, hv]
      · simpa [alookup, hk] using ih ht

theorem aupdate_none_all_none (l : List (ClientKey × Option ℤ)) (k : ClientKey)
    (h : ∀ p ∈ l, p.2 = (none : Option ℤ)) :
    ∀ p ∈ aupdate l k (none : Option ℤ), p.2 = (none : Option ℤ) := by
  induction l with
  | nil =>
      intro p hp
      simp only [aupdate, List.mem_singleton] at hp
      simp [hp]
  | cons q t ih =>
      obtain ⟨k', v'⟩ := q
      have hv : v' = none := h (k', v') (List.mem_cons_self _ _)
      have ht : ∀ r ∈ t, r.2 = (none : Option ℤ) :=
        fun r hr => h r (List.mem_cons_of_mem _ hr)
      intro p hp
      by_cases hk : k' = k
      · rw [aupdate, if_pos hk] at hp
        rcases List.mem_cons.mp hp with hp1 | hp2
        · simp [hp1]
        · exact ht p hp2
      · rw [aupdate, if_neg hk] at hp
        rcases List.mem_cons.mp hp with hp1 | hp2
        · simp [hp1, hv]
        · exact ih ht p hp2

theorem crc16_bit_lt (c : ℕ) : crc16_bit c < 2 ^ 16 := by
  unfold crc16_bit
  split <;> exact Nat.mod_lt _ (by norm_num)

theorem crc16_step_lt (c b : ℕ) : crc16_step c b < 2 ^ 16 := by
  unfold crc16_step
  rw [show (8 : ℕ) = 7 + 1 from rfl, Function.iterate_succ_apply']
  exact crc16_bit_lt _

theorem crc16_xmodem_lt (bs : List ℕ) (start : ℕ) (h : start < 2 ^ 16) :
    crc16_xmodem bs start < 2 ^ 16 := by
  induction bs generalizing start with
  | nil => simpa [crc16_xmodem] using h
  | cons b t ih =>
      simpa [crc16_xmodem] using ih (crc16_step start b) (crc16_step_lt _ _)

theorem processDatagram_sqn (st : ServerState) (sender : ClientKey)
    (f : UnpackedFrame) (clk : ServerClock) :
    (processDatagram st sender f clk).1.sqn_num = st.sqn_num + 1 := rfl

theorem processDatagram_ack (st : ServerState) (sender : ClientKey)
    (f : UnpackedFrame) (clk : ServerClock) :
    (processDatagram st sender f clk).2.ack_num = st.sqn_num := rfl

theorem structPackHHHIIH_chk (a b c d e f : ℕ) (bs : List ℕ)
    (h : structPackHHHIIH a b c d e f = some bs) :
    bs.length = 16 ∧ bs.drop 14 = pack16 f := by
  rw [structPackHHHIIH] at h
  split at h
  · cases h
    constructor
    · simp [pack16, pack32]
    · have h14 :
          (pack16 a ++ pack16 b ++ pack16 c ++ pack32 d ++ pack32 e).length
            = 14 := by
        simp [pack16, pack32]
      calc (pack16 a ++ pack16 b ++ pack16 c ++ pack32 d ++ pack32 e ++
              pack16 f).drop 14
          = (pack16 a ++ pack16 b ++ pack16 c ++ pack32 d ++ pack32 e ++
              pack16 f).drop
              (pack16 a ++ pack16 b ++ pack16 c ++ pack32 d ++
                pack32 e).length := by rw [h14]
        _ = pack16 f := List.drop_left _ _
  · cases h

theorem crc_frame_law (pre : List ℕ) (x y : ℕ)
    (h : (pre ++ pack16 (crc16_xmodem pre 65535)).drop
        ((pre ++ pack16 (crc16_xmodem pre 65535)).length - 2) = [x, y]) :
    read16 x y = crc16_xmodem
      ((pre ++ pack16 (crc16_xmodem pre 65535)).take
        ((pre ++ pack16 (crc16_xmodem pre 65535)).length - 2)) 65535 := by
  have hlen : (pre ++ pack16 (crc16_xmodem pre 65535)).length - 2
      = pre.length := by
    simp [pack16]
  rw [hlen, List.drop_left] at h
  rw [hlen, List.take_left]
  have hlt : crc16_xmodem pre 65535 < 2 ^ 16 :=
    crc16_xmodem_lt pre 65535 (by norm_num)
  have hxy : crc16_xmodem pre 65535 / 256 % 256 = x ∧
      crc16_xmodem pre 65535 % 256 = y := by
    simpa [pack16] using h
  rw [read16, ← hxy.1, ← hxy.2]
  omega

/-! Claim theorems. -/

set_option maxRecDepth 100000 in
/-- C1 counterexample: the exact frame the client crafts on its first
iteration under `--mode raw` at `SOC = 0`, `FRACSEC = 0` — SYNC 0xAA01,
FRAME_SIZE 0xFFFF, IDCODE 1, CHK 0xDEAD — ends in the bytes 0xDE 0xAD,
while the CRC16/XMODEM of the fourteen preceding bytes is 21707, so the
claimed CRC law fails on an emitted frame. -/
theorem crc_law_counterexample :
    Common_frame_build 43521 65535 1 0 0 57005 =
      some [170, 1, 255, 255, 0, 1, 0, 0, 0, 0, 0, 0, 0, 0, 222, 173] ∧
    crc16_xmodem [170, 1, 255, 255, 0, 1, 0, 0, 0, 0, 0, 0, 0, 0] 65535 = 21707 ∧
    (222 * 256 + 173 : ℕ) = 57005 ∧ (21707 : ℕ) ≠ 57005 := by
  refine ⟨by decide, by decide, by decide, by decide⟩

/-- C1 (amended): both envelope encoders emit the caller-supplied CHK
argument verbatim as the final two bytes — no CRC is computed — while the
validating codec's envelope (`example_data_frame.CommonFrame.convert2bytes`)
does satisfy the CRC law: its final two bytes, read big-endian, equal the
CRC16/XMODEM (init 0xFFFF) of all preceding bytes. -/
theorem chk_passthrough_and_example_crc_law :
    (∀ SYNC FRAME_SIZE IDCODE SOC FRACSEC CHK bs,
       Common_frame_build SYNC FRAME_SIZE IDCODE SOC FRACSEC CHK = some bs →
       bs.length = 16 ∧ bs.drop 14 = pack16 CHK) ∧
    (∀ SYNC FRAME_SIZE IDCODE SOC FRACSEC CHK bs,
       common_frame_build SYNC FRAME_SIZE IDCODE SOC FRACSEC CHK = some bs →
       bs.length = 16 ∧ bs.drop 14 = pack16 CHK) ∧
    (∀ SYNC FRAME_SIZE IDCODE SOC FRACSEC payload x y,
       (exampleConvert2bytes SYNC FRAME_SIZE IDCODE SOC FRACSEC payload).drop
           ((exampleConvert2bytes SYNC FRAME_SIZE IDCODE SOC FRACSEC
             payload).length - 2) = [x, y] →
       read16 x y =
         crc16_xmodem
           ((exampleConvert2bytes SYNC FRAME_SIZE IDCODE SOC FRACSEC
             payload).take
             ((exampleConvert2bytes SYNC FRAME_SIZE IDCODE SOC FRACSEC
               payload).length - 2)) 65535) := by
  refine ⟨fun S F I SOC FR C bs h => structPackHHHIIH_chk S F I SOC FR C bs h,
          fun S F I SOC FR C bs h => ?_,
          fun S F I SOC FR payload x y h => crc_frame_law _ x y h⟩
  rw [common_frame_build] at h
  split at h
  · cases h
  · split at h
    · cases h
    · split at h
      · cases h
      · split at h
        · cases h
        · exact structPackHHHIIH_chk S F I SOC FR C bs h

/-- C1 witness: the passthrough theorem applied to the client's concrete
frame — the final two bytes are the big-endian encoding of 0xDEAD. -/
theorem chk_passthrough_witness :
    ([170, 1, 255, 255, 0, 1, 0, 0, 0, 0, 0, 0, 0, 0, 222, 173] : List ℕ).length
        = 16 ∧
    ([170, 1, 255, 255, 0, 1, 0, 0, 0, 0, 0, 0, 0, 0, 222, 173] : List ℕ).drop 14
        = pack16 57005 :=
  chk_passthrough_and_example_crc_law.1 43521 65535 1 0 0 57005
    [170, 1, 255, 255, 0, 1, 0, 0, 0, 0, 0, 0, 0, 0, 222, 173] (by decide)

/-- C2: evaluation of the code at the failing input — packing the fraction
`2^23` (in range per the claim, `2^23 < 2^24`) and unpacking returns
fraction 0, because `int2frasec` masks with `2^23 - 1`; bit 31 of the
packed word is nevertheless 0 at this input. -/
theorem frasec_roundtrip_drops_bit23 :
    int2frasec (set_frasec 8388608 "+" false false 0) =
      (0, "+", false, false, 0) ∧
    (8388608 : ℕ) = 2 ^ 23 ∧ (8388608 : ℕ) < 2 ^ 24 ∧
    (0 : ℕ) ≠ 8388608 ∧
    set_frasec 8388608 "+" false false 0 < 2 ^ 31 := by
  refine ⟨by decide, by decide, by decide, by decide, by decide⟩

/-- C3 counterexample: `udp_payloads.set_frasec` performs no rejection at
all — a fraction of `2^24` is accepted and silently corrupts the
time-quality bits (decoding reports quality 1), a leap direction "x" is
treated exactly like "+", and the forbidden time-quality codes 12, 13, 14
are encoded as ordinary words. -/
theorem frasec_no_rejection_counterexample :
    set_frasec 16777216 "+" false false 0 = 16777216 ∧
    (int2frasec (set_frasec 16777216 "+" false false 0)).2.2.2.2 = 1 ∧
    set_frasec 0 "x" false false 0 = set_frasec 0 "+" false false 0 ∧
    set_frasec 0 "+" false false 12 = 12 <<< 24 ∧
    set_frasec 0 "+" false false 13 = 13 <<< 24 ∧
    set_frasec 0 "+" false false 14 = 14 <<< 24 := by
  refine ⟨by decide, by decide, by decide, by decide, by decide, by decide⟩

/-- C3 (amended): `udp_payloads.set_frasec` never rejects — every
time-quality nibble, 12–14 included, is encoded as-is; the range
validation described by the claim lives in
`example_data_frame.CommonFrame.set_frasec`, which raises `FrameError`
for an oversized fraction, a forbidden time-quality code, or a bad leap
direction; and `common_frame_build` refuses an out-of-range FRACSEC not by
returning an error but by terminating the process (modelled as `none`). -/
theorem frasec_validation_location :
    (∀ q, q < 16 → set_frasec 0 "+" false false q = q <<< 24) ∧
    (∀ f d o p q, 16777215 < f →
       exampleSetFrasec f d o p q =
         Except.error "Frasec out of range. 0 <= FRASEC <= 16777215 ") ∧
    (∀ f d o p q, f ≤ 16777215 → q ∈ [12, 13, 14] →
       exampleSetFrasec f d o p q =
         Except.error "Time quality flag out of range. 0 <= MSG_TQ <= 15") ∧
    (∀ f d o p q, f ≤ 16777215 → q ≤ 15 → q ∉ [12, 13, 14] →
       d ≠ "+" → d ≠ "-" →
       exampleSetFrasec f d o p q =
         Except.error "Leap second direction must be + or -") ∧
    (∀ SYNC FRAME_SIZE IDCODE SOC FRACSEC CHK, MAX_24_BIT < FRACSEC →
       common_frame_build SYNC FRAME_SIZE IDCODE SOC FRACSEC CHK = none) := by
  refine ⟨by decide, ?_, ?_, ?_, ?_⟩
  · intro f d o p q hf
    unfold exampleSetFrasec
    rw [if_pos (by omega)]
  · intro f d o p q hf hq
    unfold exampleSetFrasec
    rw [if_neg (not_not_intro hf), if_pos (Or.inr hq)]
  · intro f d o p q hf hq15 hqmem hdp hdm
    unfold exampleSetFrasec
    rw [if_neg (not_not_intro hf), if_neg (by simp [hq15, hqmem]),
      if_pos (by simp [hdp, hdm])]
  · intro SYNC FRAME_SIZE IDCODE SOC FRACSEC CHK h
    unfold common_frame_build
    split
    · rfl
    · split
      · rfl
      · split
        · rfl
        · rw [if_pos (by simp only [MAX_24_BIT] at h ⊢; omega)]

/-- C3 witness: the amended theorem applied at concrete inputs — quality 12
is encoded by `set_frasec`, while the validating encoder rejects each of
the three forbidden categories, and `common_frame_build` yields no frame
for a fraction of `2^24`. -/
theorem frasec_validation_location_witness :
    set_frasec 0 "+" false false 12 = 12 <<< 24 ∧
    exampleSetFrasec 16777216 "+" false false 0 =
      Except.error "Frasec out of range. 0 <= FRASEC <= 16777215 " ∧
    exampleSetFrasec 0 "+" false false 12 =
      Except.error "Time quality flag out of range. 0 <= MSG_TQ <= 15" ∧
    exampleSetFrasec 0 "x" false false 0 =
      Except.error "Leap second direction must be + or -" ∧
    common_frame_build 43521 65535 1 0 16777216 57005 = none :=
  ⟨frasec_validation_location.1 12 (by decide),
   frasec_validation_location.2.1 16777216 "+" false false 0 (by decide),
   frasec_validation_location.2.2.1 0 "+" false false 12 (by decide) (by decide),
   frasec_validation_location.2.2.2.1 0 "x" false false 0 (by decide) (by decide)
     (by decide) (by decide) (by decide),
   frasec_validation_location.2.2.2.2 43521 65535 1 0 16777216 57005 (by decide)⟩

/-- C4 counterexample: with a zero correction and a 2 ms round trip from a
fresh state, the code moves the offset by +500 µs (it ADDS half the round
trip), while the claim's subtraction would move it by −500 µs. -/
theorem damping_counterexample :
    (apply_time_correction ⟨0, 0, 0⟩ 0 2).1.local_time_offset = 1/2000 ∧
    (claimApplyTimeCorrection ⟨0, 0, 0⟩ 0 2).1.local_time_offset = -(1/2000) ∧
    ((1 : ℚ)/2000) ≠ -(1/2000) := by
  refine ⟨?_, ?_, by norm_num⟩ <;>
    simp [apply_time_correction, claimApplyTimeCorrection] <;> norm_num

/-- C4 (amended): every received correction `c` (µs) is adjusted by ADDING
half of the measured round-trip time (converted from ms to µs), scaled by
the damping factor 0.5 for the first 5 packets, 0.3 for the next 5 and 0.1
thereafter, and the result is added to the local offset (seconds); the
packet counter advances by one. -/
theorem damping_loop_adds_half_rtt :
    ∀ st c rtt,
      (apply_time_correction st c rtt).1.local_time_offset =
        st.local_time_offset +
          ((c + rtt * 1000 / 2) / 1000000) *
            (if st.sync_count < 5 then (1 : ℚ)/2
             else if st.sync_count < 10 then 3/10 else 1/10) ∧
      (apply_time_correction st c rtt).1.sync_count = st.sync_count + 1 ∧
      (apply_time_correction st c rtt).2.2.2 = rtt * 1000 / 2 ∧
      (apply_time_correction st c rtt).2.2.1 = c + rtt * 1000 / 2 := by
  intro st c rtt
  exact ⟨rfl, rfl, rfl, rfl⟩

/-- C7 counterexample: on the very first sample `s = 1` µs the stored
Kalman variance is the Python-`int()`-truncated 671096, not the exact
`(1 − K)·P_pred = 202000000/301` of the claimed recurrence. -/
theorem estimator_truncation_counterexample :
    (add_measurement (mkAnalyzer 1000) 0 1).kalman_est = some 1 ∧
    (add_measurement (mkAnalyzer 1000) 0 1).kalman_P = 671096 ∧
    (specKalmanStep 1 1000000 1 10000 2000000).2 = 202000000/301 ∧
    ((add_measurement (mkAnalyzer 1000) 0 1).kalman_P : ℚ) ≠
      (specKalmanStep 1 1000000 1 10000 2000000).2 := by
  refine ⟨?_, ?_, ?_, ?_⟩ <;>
    simp [add_measurement, mkAnalyzer, pytrunc, specKalmanStep] <;> norm_num

/-- C7 (amended): `add_measurement` follows the claimed EWMA, Kalman and
PID recurrences except that the stored Kalman estimate, Kalman variance
and PID output are truncated toward zero by Python `int()`; the EWMA
prediction is kept exact, the Kalman/PID updates run on the first sample
too (where the estimate initializes to the sample itself). -/
theorem add_measurement_recurrences :
    ∀ (a : Analyzer) (dsoc dfrac : ℤ),
      (add_measurement a dsoc dfrac).ewma_pred =
        some (match a.ewma_pred with
          | none => ((dsoc * 1000000 + dfrac : ℤ) : ℚ)
          | some p => a.alpha * ((dsoc * 1000000 + dfrac : ℤ) : ℚ) +
              (1 - a.alpha) * p) ∧
      (add_measurement a dsoc dfrac).kalman_est =
        some (pytrunc
          (((a.kalman_est.getD (dsoc * 1000000 + dfrac) : ℤ) : ℚ) +
            ((a.kalman_P + a.kalman_Q : ℤ) : ℚ) /
              (((a.kalman_P + a.kalman_Q : ℤ) : ℚ) + (a.kalman_R : ℚ)) *
            (((dsoc * 1000000 + dfrac : ℤ) : ℚ) -
              ((a.kalman_est.getD (dsoc * 1000000 + dfrac) : ℤ) : ℚ)))) ∧
      (add_measurement a dsoc dfrac).kalman_P =
        pytrunc ((1 - ((a.kalman_P + a.kalman_Q : ℤ) : ℚ) /
            (((a.kalman_P + a.kalman_Q : ℤ) : ℚ) + (a.kalman_R : ℚ))) *
          ((a.kalman_P + a.kalman_Q : ℤ) : ℚ)) ∧
      (add_measurement a dsoc dfrac).pid_integral =
        a.pid_integral + (dsoc * 1000000 + dfrac) ∧
      (add_measurement a dsoc dfrac).pid_prev_err =
        some (dsoc * 1000000 + dfrac) ∧
      (add_measurement a dsoc dfrac).pid_pred =
        pytrunc (a.kp * ((dsoc * 1000000 + dfrac : ℤ) : ℚ) +
          a.ki * ((a.pid_integral + (dsoc * 1000000 + dfrac) : ℤ) : ℚ) +
          a.kd * (((match a.pid_prev_err with
            | none => 0
            | some p => dsoc * 1000000 + dfrac - p) : ℤ) : ℚ)) := by
  intro a dsoc dfrac
  exact ⟨rfl, rfl, rfl, rfl, rfl, rfl⟩

/-- C8: the offset sampler subtracts client SOC/FRACSEC from the server's,
applies exactly one borrow (fraction below −10⁶ µs) or carry (above 10⁶)
to the pair, and this normalization leaves the total µs sample
`ΔSOC·10⁶ + ΔFRAC` unchanged. -/
theorem time_diff_calc_law :
    ∀ sS sF cS cF : ℤ,
      (sF - cF < -1000000 →
        time_diff_calc sS sF cS cF = (sS - cS - 1, sF - cF + 1000000)) ∧
      (1000000 < sF - cF →
        time_diff_calc sS sF cS cF = (sS - cS + 1, sF - cF - 1000000)) ∧
      (-1000000 ≤ sF - cF → sF - cF ≤ 1000000 →
        time_diff_calc sS sF cS cF = (sS - cS, sF - cF)) ∧
      (time_diff_calc sS sF cS cF).1 * 1000000 +
          (time_diff_calc sS sF cS cF).2 =
        (sS - cS) * 1000000 + (sF - cF) := by
  intro sS sF cS cF
  refine ⟨fun h => ?_, fun h => ?_, fun h1 h2 => ?_, ?_⟩ <;>
    simp only [time_diff_calc] <;> split_ifs <;>
    simp_all [Prod.mk.injEq] <;> omega

/-- C8 witness: a concrete borrow — server one second ahead in SOC but 1.5
s behind in the fraction — normalizes to `(0, −500000)` with the total
sample preserved. -/
theorem time_diff_calc_law_witness :
    time_diff_calc 1 0 0 1500000 = (1 - 0 - 1, 0 - 1500000 + 1000000) ∧
    (time_diff_calc 1 0 0 1500000).1 * 1000000 +
        (time_diff_calc 1 0 0 1500000).2 =
      (1 - 0) * 1000000 + (0 - 1500000) :=
  ⟨(time_diff_calc_law 1 0 0 1500000).1 (by decide),
   (time_diff_calc_law 1 0 0 1500000).2.2.2⟩

/-- C5: evaluation of the code against the claim — the per-client bias is
initialized to `None` and no statement in the receive loop ever assigns it
a value, so whenever every stored bias is `None` (as from startup), it
stays `None` after processing any datagram and the emitted correction is
exactly the un-biased scheme value; over any trace from the initial state
no bias is ever captured, at packet #30 or ever. -/
theorem bias_never_captured :
    (∀ st sender f clk, biasesUnset st →
       biasesUnset (processDatagram st sender f clk).1 ∧
       (processDatagram st sender f clk).2.correction_us =
         unbiasedCorrection st f clk) ∧
    (∀ ds, biasesUnset (runServer initServerState ds).1) := by
  have hstep : ∀ st sender f clk, biasesUnset st →
      biasesUnset (processDatagram st sender f clk).1 ∧
      (processDatagram st sender f clk).2.correction_us =
        unbiasedCorrection st f clk := by
    intro st sender f clk hb
    have hlook : (alookup st.client_bias_us sender).getD none =
        (none : Option ℤ) := alookup_all_none _ _ hb
    constructor
    · intro p hp
      have hbt : (processDatagram st sender f clk).1.client_bias_us =
          aupdate st.client_bias_us sender
            ((alookup st.client_bias_us sender).getD none) := rfl
      rw [hbt, hlook] at hp
      exact aupdate_none_all_none _ _ hb p hp
    · have hc : (processDatagram st sender f clk).2.correction_us =
          match (alookup st.client_bias_us sender).getD none with
          | some b =>
              if schemeMap f.idcode = "ewma" ∨ schemeMap f.idcode = "kalman" ∨
                  schemeMap f.idcode = "pid" then
                unbiasedCorrection st f clk - b
              else unbiasedCorrection st f clk
          | none => unbiasedCorrection st f clk := rfl
      rw [hc, hlook]
  have hinit : biasesUnset initServerState := by
    intro p hp
    exact absurd hp (List.not_mem_nil p)
  have hrun : ∀ ds st, biasesUnset st → biasesUnset (runServer st ds).1 := by
    intro ds
    induction ds with
    | nil => intro st hb; simpa [runServer] using hb
    | cons hd tl ih =>
        intro st hb
        obtain ⟨bs, sender, clk⟩ := hd
        rcases hunp : unpackFrame bs with _ | f
        · simpa [runServer, serverLoopStep, hunp] using ih st hb
        · simpa [runServer, serverLoopStep, hunp] using
            ih _ ((hstep st sender f clk hb).1)
  exact ⟨hstep, fun ds => hrun ds _ hinit⟩

/-- C5 witness: applied at the initial state to an EWMA-scheme frame
(IDCODE 2) — the bias table stays all-`None` and the reply carries the
un-biased scheme value. -/
theorem bias_never_captured_witness :
    biasesUnset (processDatagram initServerState ("c", 1)
      ⟨43521, 65535, 2, 0, 0, 57005⟩ ⟨0, 0, 0, 0⟩).1 ∧
    (processDatagram initServerState ("c", 1)
        ⟨43521, 65535, 2, 0, 0, 57005⟩ ⟨0, 0, 0, 0⟩).2.correction_us =
      unbiasedCorrection initServerState ⟨43521, 65535, 2, 0, 0, 57005⟩
        ⟨0, 0, 0, 0⟩ :=
  bias_never_captured.1 initServerState ("c", 1)
    ⟨43521, 65535, 2, 0, 0, 57005⟩ ⟨0, 0, 0, 0⟩
    (fun p hp => absurd hp (List.not_mem_nil p))

/-- C6: every reply object carries exactly the five fields `ack_num`,
`scheme`, `correction_us` (an integer by construction), `server_time_soc`
and `server_time_fracsec`; the scheme is the IDCODE mapped through
1=raw, 2=ewma, 3=kalman, 4=pid with any other value defaulting to raw; and
over any trace the emitted `ack_num` values are consecutive from the
starting sequence number, hence strictly increasing across replies. -/
theorem reply_shape_and_ack :
    (∀ st sender f clk,
       (replyJson (processDatagram st sender f clk).2).map Prod.fst =
         ["ack_num", "scheme", "correction_us", "server_time_soc",
          "server_time_fracsec"] ∧
       (processDatagram st sender f clk).2.scheme = schemeMap f.idcode ∧
       (processDatagram st sender f clk).2.ack_num = st.sqn_num) ∧
    (schemeMap 1 = "raw" ∧ schemeMap 2 = "ewma" ∧ schemeMap 3 = "kalman" ∧
     schemeMap 4 = "pid" ∧ ∀ n, n ∉ [1, 2, 3, 4] → schemeMap n = "raw") ∧
    (∀ st ds, ((runServer st ds).2.map Reply.ack_num) =
       List.range' st.sqn_num (runServer st ds).2.length) ∧
    (∀ st ds, List.Chain' (· < ·) ((runServer st ds).2.map Reply.ack_num)) := by
  have hack : ∀ ds st, ((runServer st ds).2.map Reply.ack_num) =
      List.range' st.sqn_num (runServer st ds).2.length := by
    intro ds
    induction ds with
    | nil => intro st; simp [runServer]
    | cons hd tl ih =>
        intro st
        obtain ⟨bs, sender, clk⟩ := hd
        rcases hunp : unpackFrame bs with _ | f
        · simpa [runServer, serverLoopStep, hunp] using ih st
        · simp only [runServer, serverLoopStep, hunp]
          rw [List.map_cons, processDatagram_ack,
            ih ((processDatagram st sender f clk).1), processDatagram_sqn,
            List.length_cons, List.range'_succ]
  refine ⟨fun st sender f clk => ⟨rfl, rfl, rfl⟩,
          ⟨rfl, rfl, rfl, rfl, ?_⟩, fun st ds => hack ds st, fun st ds => ?_⟩
  · intro n hn
    simp only [List.mem_cons, List.not_mem_nil, or_false, not_or] at hn
    simp [schemeMap, hn.1, hn.2.1, hn.2.2.1, hn.2.2.2]
  · rw [hack ds st]
    exact (List.pairwise_lt_range' _ _).chain'

/-- C6 witness: an IDCODE outside the reserved mapping defaults to the raw
scheme. -/
theorem reply_shape_and_ack_witness : schemeMap 7 = "raw" :=
  reply_shape_and_ack.2.1.2.2.2.2 7 (by decide)

/-- C9: a datagram that fails `struct.unpack` is recovered locally — the
loop step leaves the entire server state (global and per-client analyzers
included) unchanged and sends no reply, and the loop over a trace
continues exactly as if the malformed datagram had never arrived. -/
theorem bad_packet_recovery :
    (∀ st bs sender clk, unpackFrame bs = none →
       serverLoopStep st bs sender clk = (st, none)) ∧
    (∀ st bs sender clk ds, unpackFrame bs = none →
       runServer st ((bs, sender, clk) :: ds) = runServer st ds) := by
  have h1 : ∀ st bs sender clk, unpackFrame bs = none →
      serverLoopStep st bs sender clk = (st, none) := by
    intro st bs sender clk h
    simp [serverLoopStep, h]
  refine ⟨h1, ?_⟩
  intro st bs sender clk ds h
  simp only [runServer, h1 st bs sender clk h]

/-- C9 witness: a one-byte datagram (too short for the 16-byte layout) is
dropped with the initial state intact. -/
theorem bad_packet_recovery_witness :
    serverLoopStep initServerState [170] ("c", 1) ⟨0, 0, 0, 0⟩ =
      (initServerState, none) :=
  bad_packet_recovery.1 initServerState [170] ("c", 1) ⟨0, 0, 0, 0⟩ rfl

/-- C10: processing one valid datagram calls `add_measurement` twice with
the same (ΔSOC, ΔFRACSEC) sample on the global analyzer and twice on the
sender's analyzer — both packet counters advance by 2, both ring buffers
take two new slots (capped at their `maxlen`), and both estimator states
equal a double application of the update step. -/
theorem double_measurement :
    ∀ (st : ServerState) (sender : ClientKey) (f : UnpackedFrame)
      (clk : ServerClock),
      (processDatagram st sender f clk).1.global_analyzer.packet_count =
        st.global_analyzer.packet_count + 2 ∧
      (processDatagram st sender f clk).1.global_analyzer.timing_data.length =
        min (st.global_analyzer.timing_data.length + 2)
          st.global_analyzer.buffer_size ∧
      estState (processDatagram st sender f clk).1.global_analyzer =
        estState (add_measurement (add_measurement st.global_analyzer
          (frame_offsets f clk).1 (frame_offsets f clk).2)
          (frame_offsets f clk).1 (frame_offsets f clk).2) ∧
      (alookup (processDatagram st sender f clk).1.client_analyzers
          sender).map Analyzer.packet_count =
        some (((alookup st.client_analyzers sender).getD
          (mkAnalyzer 500)).packet_count + 2) ∧
      (alookup (processDatagram st sender f clk).1.client_analyzers
          sender).map (fun a => a.timing_data.length) =
        some (min (((alookup st.client_analyzers sender).getD
            (mkAnalyzer 500)).timing_data.length + 2)
          (((alookup st.client_analyzers sender).getD
            (mkAnalyzer 500)).buffer_size)) ∧
      (alookup (processDatagram st sender f clk).1.client_analyzers
          sender).map estState =
        some (estState (add_measurement (add_measurement
          ((alookup st.client_analyzers sender).getD (mkAnalyzer 500))
          (frame_offsets f clk).1 (frame_offsets f clk).2)
          (frame_offsets f clk).1 (frame_offsets f clk).2)) := by
  intro st sender f clk
  have hg : (processDatagram st sender f clk).1.global_analyzer =
      annotateAnalyzer (add_measurement (add_measurement st.global_analyzer
        (frame_offsets f clk).1 (frame_offsets f clk).2)
        (frame_offsets f clk).1 (frame_offsets f clk).2)
        (schemeMap f.idcode)
        ((processDatagram st sender f clk).2.correction_us) := rfl
  have hcl : alookup (processDatagram st sender f clk).1.client_analyzers
      sender =
      some (annotateAnalyzer (add_measurement (add_measurement
        ((alookup st.client_analyzers sender).getD (mkAnalyzer 500))
        (frame_offsets f clk).1 (frame_offsets f clk).2)
        (frame_offsets f clk).1 (frame_offsets f clk).2)
        (schemeMap f.idcode)
        ((processDatagram st sender f clk).2.correction_us)) :=
    alookup_aupdate_self _ _ _
  refine ⟨?_, ?_, ?_, ?_, ?_, ?_⟩
  · rw [hg, annotateAnalyzer_packet_count, add_measurement_packet_count,
      add_measurement_packet_count]
  · rw [hg, annotateAnalyzer_timing_length, add_measurement_timing_length,
      add_measurement_buffer_size, add_measurement_timing_length]
    omega
  · rw [hg, annotateAnalyzer_estState]
  · rw [hcl, Option.map_some']
    simp only [annotateAnalyzer_packet_count, add_measurement_packet_count]
  · rw [hcl, Option.map_some']
    simp only [annotateAnalyzer_timing_length, add_measurement_timing_length,
      add_measurement_buffer_size, Option.some.injEq]
    omega
  · rw [hcl, Option.map_some', annotateAnalyzer_estState]

end MTS
